import Mathlib

/-!
# Mython interpreter — verification of the specification against the source

A shallow embedding of the Mython interpreter (files `lexer.h`, `lexer.cpp`,
`runtime.cpp`, `statement.h`, `statement.cpp`) and proofs of the claims made
by the natural-language specification about it.

Part 1 embeds the lexer (`parse::Lexer`): the token model of `lexer.h` and the
token-production loop of `Lexer::LoadTokens` / `AssignIndentTokens` /
`AssignWordToken` / `AssignEofToken`.  Repeated `NextToken` calls re-enter
`LoadTokens` with the saved iterator, indent level and token buffer, so the
whole tokenization is one loop over the input; the embedding `loadTokens`
merges those re-entries into a single fuel-indexed recursion (each step
consumes at least one input character, so `input.length + 1` units of fuel
always suffice).

Part 2 embeds the runtime value model (`runtime.cpp`) and the AST evaluator
(`statement.cpp`) as a fuel-indexed interpreter over an explicit heap of class
instances; thrown `ObjectHolder`s (the `Return` unwind) and thrown
`std::runtime_error`s are the `ret` and `err` outcomes of `EOut`.
-/

namespace Mython

/-! ## Token model (`lexer.h`, namespace `token_type`) -/

/-- The token tagged union of `lexer.h`.  Valued variants carry their payload
(`Number` stores a C++ `int`, modelled as `Int` with the overflow bound checked
where `std::stoi` would throw); singleton variants are bare tags. -/
inductive Token
  | num (value : Int)
  | id (value : String)
  | chr (value : Char)
  | str (value : String)
  | kwClass
  | kwReturn
  | kwIf
  | kwElse
  | kwDef
  | newline
  | kwPrint
  | indent
  | dedent
  | kwAnd
  | kwOr
  | kwNot
  | eq
  | notEq
  | lessOrEq
  | greaterOrEq
  | kwNone
  | kwTrue
  | kwFalse
  | eof
deriving DecidableEq

/-! ## Lexer character classes (`Lexer::LoadTokens`) -/

/-- `c >= '0' && c <= '9'` in `LoadTokens`. -/
def isDigitCh (c : Char) : Bool := '0' ≤ c && c ≤ '9'

/-- The identifier-start test of `LoadTokens`:
`(c >= 'A' && c <= 'Z') || c == '_' || (c >= 'a' && c <= 'z')`. -/
def isIdStart (c : Char) : Bool :=
  ('A' ≤ c && c ≤ 'Z') || c = '_' || ('a' ≤ c && c ≤ 'z')

/-- The identifier-continuation test of the word loop in `LoadTokens`
(digits added to the start set). -/
def isWordCh (c : Char) : Bool :=
  isDigitCh c || ('A' ≤ c && c ≤ 'Z') || c = '_' || ('a' ≤ c && c ≤ 'z')

/-- Numeric value of a digit run (what `std::stoi` computes on an
all-digit string when it does not overflow). -/
def digitsVal (ds : List Char) : Nat :=
  ds.foldl (fun a c => a * 10 + (c.toNat - '0'.toNat)) 0

/-- `INT_MAX`: the bound past which `std::stoi` throws `std::out_of_range`. -/
def intMax : Nat := 2147483647

/-- The escape table of the string branch of `LoadTokens`; `none` is the
`default:` case which discards both the backslash and the escaped char. -/
def escChar : Char → Option Char
  | 'n' => some '\n'
  | 't' => some '\t'
  | 'r' => some '\r'
  | '"' => some '"'
  | '\\' => some '\\'
  | '\'' => some '\''
  | _ => none

/-- The string-scanning `while` loop of `LoadTokens`, opened by quote `q`.
Returns the accumulated chars and the input after the closing quote, or
`none` when the input ends before the closing quote (including a backslash
directly at end of input) — the branch on which the C++ code seals the
stream with `AssignEofToken` and emits no `String` token. -/
def scanStr (q : Char) : List Char → Option (List Char × List Char)
  | [] => none
  | c :: cs =>
    if c = q then some ([], cs)
    else if c = '\\' then
      match cs with
      | [] => none
      | e :: es =>
        match scanStr q es with
        | none => none
        | some (w, rem) =>
          match escChar e with
          | some ch => some (ch :: w, rem)
          | none => some (w, rem)
    else
      match scanStr q cs with
      | none => none
      | some (w, rem) => some (c :: w, rem)

/-- `Lexer::AssignWordToken`: keyword table, else `Id`. -/
def assignWordToken (w : String) : Token :=
  if w = "class" then .kwClass
  else if w = "return" then .kwReturn
  else if w = "if" then .kwIf
  else if w = "else" then .kwElse
  else if w = "def" then .kwDef
  else if w = "print" then .kwPrint
  else if w = "and" then .kwAnd
  else if w = "or" then .kwOr
  else if w = "not" then .kwNot
  else if w = "None" then .kwNone
  else if w = "True" then .kwTrue
  else if w = "False" then .kwFalse
  else .id w

/-- The compound-operator table (`==`, `!=`, `<=`, `>=`) of `LoadTokens`;
only called with `c` one of `=`, `!`, `<`, `>`. -/
def cmpTok (c : Char) : Token :=
  if c = '=' then .eq
  else if c = '!' then .notEq
  else if c = '<' then .lessOrEq
  else .greaterOrEq

/-- `Lexer::AssignIndentTokens`, token part: the `Indent` or `Dedent` run
closing the gap from level `cur` to level `lvl` (empty when equal; the C++
`return false` fall-through and `return true` break re-enter the very same
continuation, so the merged loop needs no flag). The list is built in the
reversed order used by the token accumulator. -/
def assignIndentTokens (lvl cur : Nat) : List Token :=
  if lvl > cur then List.replicate (lvl - cur) Token.indent
  else List.replicate (cur - lvl) Token.dedent

/-- `Lexer::AssignEofToken`, on the reversed token accumulator: push `Newline`
unless the buffer is empty or already ends with one, then one `Dedent` per
open indent level, then `Eof`. -/
def assignEofToken (ind : Nat) (rtoks : List Token) : List Token :=
  let r1 := if rtoks ≠ [] ∧ rtoks.head? ≠ some Token.newline
    then Token.newline :: rtoks else rtoks
  Token.eof :: (List.replicate ind Token.dedent ++ r1)

/-- How a lexer run can fail to yield a complete token stream.
`stuck`: a character matched by no production rule, on which the C++
`while (true)` loop of `LoadTokens` repeats forever without consuming input
(no token and no error is ever produced); `overflow`: a digit run whose value
exceeds `INT_MAX`, on which `std::stoi` throws `std::out_of_range` (which is
not a `LexerError`).  Neither aborts through the lexer's own error type. -/
inductive LexAbort
  | stuck
  | overflow
deriving DecidableEq

/-- The line-start indentation handling of `LoadTokens`: when the previous
token is `Newline` (or none has been produced) and the next character opens
neither a blank line nor a comment, emit the `Indent`/`Dedent` run for the
counted spaces and update the level; otherwise leave the state alone. -/
def lineStartAdjust (atStart : Bool) (c : Char) (spaces ind : Nat)
    (rtoks : List Token) : Nat × List Token :=
  if atStart && !(c = '\n') && !(c = '#') then
    (spaces / 2, assignIndentTokens (spaces / 2) ind ++ rtoks)
  else (ind, rtoks)

/-- The outcome of one pass of the `while (true)` body of `LoadTokens`:
either the stream is sealed (`done`, reversed token list), or the run aborts
outside the lexer's control (`halt`), or the loop continues with a new state
(`more`). -/
inductive LexStep
  | done (ts : List Token)
  | halt (ab : LexAbort)
  | more (input : List Char) (ind : Nat) (rtoks : List Token)

/-- One pass of the `while (true)` body of `Lexer::LoadTokens`.  State:
remaining input, current indent level (`indent_`), reversed token buffer
(`tokens_`); the `break`s that end one `LoadTokens` call are irrelevant to
the produced stream because `NextToken` re-enters the loop with the same
state, so a pass that pushes a token simply continues via `more`.  The
`Newline`-push case, which the C++ code performs without consuming the `'\n'`
and completes on re-entry, is inlined with that forced re-entry, so every
`more` consumes at least one character.  When the remaining input is all
spaces the C++ code dereferences the end iterator — the resulting char
matches no rule — updates the indent when at line start, and seals the
stream on re-entry. -/
def lexStep (input : List Char) (ind : Nat) (rtoks : List Token) : LexStep :=
  match input with
  | [] => .done (assignEofToken ind rtoks)
  | _ :: _ =>
    let spaces := (input.takeWhile (fun c => c = ' ')).length
    let rest := input.dropWhile (fun c => c = ' ')
    let atStart : Bool := rtoks.isEmpty || rtoks.head? = some Token.newline
    match rest with
    | [] =>
      if atStart then
        .done (assignEofToken (spaces / 2)
          (assignIndentTokens (spaces / 2) ind ++ rtoks))
      else
        .done (assignEofToken ind rtoks)
    | c :: cs =>
      let st := lineStartAdjust atStart c spaces ind rtoks
      let ind' := st.1
      let rtoks' := st.2
      if isDigitCh c then
        let n := digitsVal (rest.takeWhile isDigitCh)
        if n > intMax then .halt .overflow
        else .more (rest.dropWhile isDigitCh) ind'
          (Token.num (Int.ofNat n) :: rtoks')
      else if c = '\'' || c = '"' then
        match scanStr c cs with
        | none => .done (assignEofToken ind' rtoks')
        | some (w, rem) =>
          .more rem ind' (Token.str (String.mk w) :: rtoks')
      else if c = '=' || c = '!' || c = '<' || c = '>' then
        match cs with
        | [] => .done (assignEofToken ind' (Token.chr c :: rtoks'))
        | d :: ds =>
          if d = '=' then .more ds ind' (cmpTok c :: rtoks')
          else .more cs ind' (Token.chr c :: rtoks')
      else if c = '.' || c = ',' || c = ':' || c = '(' || c = ')' ||
          c = '+' || c = '-' || c = '*' || c = '/' then
        .more cs ind' (Token.chr c :: rtoks')
      else if isIdStart c then
        .more (rest.dropWhile isWordCh) ind'
          (assignWordToken (String.mk (rest.takeWhile isWordCh)) :: rtoks')
      else if c = '#' then
        .more (rest.dropWhile (fun x => ¬ (x = '\n'))) ind' rtoks'
      else if c = '\n' then
        if rtoks'.isEmpty || rtoks'.head? = some Token.newline then
          .more cs ind' rtoks'
        else
          .more cs ind' (Token.newline :: rtoks')
      else
        .halt .stuck

/-- The `while (true)` loop of `LoadTokens` (merged over the repeated
`NextToken` re-entries), driven by fuel; on the production rule that matches
no character the C++ loop repeats the same state forever, which the fuel-out
case reports as `stuck`. -/
def loadTokens : Nat → List Char → Nat → List Token → Except LexAbort (List Token)
  | 0, _, _, _ => .error .stuck
  | f+1, input, ind, rtoks =>
    match lexStep input ind rtoks with
    | .done ts => .ok ts
    | .halt ab => .error ab
    | .more input' ind' rtoks' => loadTokens f input' ind' rtoks'

/-- The complete token stream of an input, in production order: the merged
loop run with always-sufficient fuel (every `more` consumes at least one
character), un-reversed. -/
def lexAll (input : List Char) : Except LexAbort (List Token) :=
  (loadTokens (input.length + 1) input 0 []).map List.reverse

/-! ## Lexer invariants -/

/-- The running invariant of the lexer state: in the reversed token buffer,
the `Indent` tokens exceed the `Dedent` tokens by exactly the current indent
level, and no `Eof` has been emitted yet. -/
def LexInv (ind : Nat) (rtoks : List Token) : Prop :=
  rtoks.count Token.indent = rtoks.count Token.dedent + ind ∧
  rtoks.count Token.eof = 0

/-- The closure property of a finished (still reversed) stream: balanced
`Indent`/`Dedent`, exactly one `Eof`, and the stream is `Eof` alone or ends
(in production order) with `Newline`, a `Dedent` run, and `Eof`. -/
def ClosedStream (ts : List Token) : Prop :=
  ts.count Token.indent = ts.count Token.dedent ∧
  ts.count Token.eof = 1 ∧
  (ts = [Token.eof] ∨
    ∃ k rest, ts = Token.eof :: (List.replicate k Token.dedent ++
      (Token.newline :: rest)))

theorem inv_push {ind : Nat} {rtoks : List Token} (t : Token)
    (hti : t ≠ Token.indent) (htd : t ≠ Token.dedent) (hte : t ≠ Token.eof)
    (h : LexInv ind rtoks) : LexInv ind (t :: rtoks) := by
  obtain ⟨h1, h2⟩ := h
  constructor <;>
    simp [List.count_cons, beq_iff_eq, hti, htd, hte, h1, h2]

theorem inv_indentToks {ind : Nat} {rtoks : List Token} (lvl : Nat)
    (h : LexInv ind rtoks) :
    LexInv lvl (assignIndentTokens lvl ind ++ rtoks) := by
  obtain ⟨h1, h2⟩ := h
  unfold assignIndentTokens
  constructor <;> split <;>
    simp [List.count_append, List.count_replicate] <;> omega

theorem inv_lineStartAdjust {ind : Nat} {rtoks : List Token}
    (b : Bool) (c : Char) (spaces : Nat) (h : LexInv ind rtoks) :
    LexInv (lineStartAdjust b c spaces ind rtoks).1
      (lineStartAdjust b c spaces ind rtoks).2 := by
  unfold lineStartAdjust
  split
  · exact inv_indentToks _ h
  · exact h

theorem cmpTok_ne (c : Char) :
    cmpTok c ≠ Token.indent ∧ cmpTok c ≠ Token.dedent ∧
      cmpTok c ≠ Token.eof := by
  unfold cmpTok
  repeat' split
  all_goals
    exact ⟨(fun h => nomatch h), (fun h => nomatch h), (fun h => nomatch h)⟩

set_option maxHeartbeats 2000000 in
theorem assignWordToken_ne (w : String) :
    assignWordToken w ≠ Token.indent ∧ assignWordToken w ≠ Token.dedent ∧
      assignWordToken w ≠ Token.eof := by
  unfold assignWordToken
  repeat' split
  all_goals
    exact ⟨(fun h => nomatch h), (fun h => nomatch h), (fun h => nomatch h)⟩

theorem assignEofToken_spec {ind : Nat} {rtoks : List Token}
    (h : LexInv ind rtoks) : ClosedStream (assignEofToken ind rtoks) := by
  obtain ⟨h1, h2⟩ := h
  unfold assignEofToken
  match rtoks with
  | [] =>
    simp only [List.count_nil] at h1 h2
    have hind : ind = 0 := by omega
    subst hind
    simp [ClosedStream]
  | t :: rs =>
    by_cases ht : t = Token.newline
    · subst ht
      refine ⟨?_, ?_, Or.inr ⟨ind, rs, by simp⟩⟩ <;>
        simp_all [List.count_cons, List.count_append, List.count_replicate,
          beq_iff_eq] <;> omega
    · refine ⟨?_, ?_, Or.inr ⟨ind, t :: rs, by simp [ht]⟩⟩ <;>
        simp_all [List.count_cons, List.count_append, List.count_replicate,
          beq_iff_eq] <;> omega

theorem lexStep_more_inv {input : List Char} {ind : Nat} {rtoks : List Token}
    {i2 : List Char} {n2 : Nat} {r2 : List Token}
    (h : lexStep input ind rtoks = .more i2 n2 r2) (hinv : LexInv ind rtoks) :
    LexInv n2 r2 := by
  simp only [lexStep] at h
  repeat' split at h
  all_goals cases h
  all_goals first
    | exact inv_lineStartAdjust _ _ _ hinv
    | exact inv_push _
        (by first
          | exact (cmpTok_ne _).1 | exact (assignWordToken_ne _).1 | simp)
        (by first
          | exact (cmpTok_ne _).2.1 | exact (assignWordToken_ne _).2.1 | simp)
        (by first
          | exact (cmpTok_ne _).2.2 | exact (assignWordToken_ne _).2.2 | simp)
        (inv_lineStartAdjust _ _ _ hinv)

theorem lexStep_done_spec {input : List Char} {ind : Nat} {rtoks : List Token}
    {ts : List Token}
    (h : lexStep input ind rtoks = .done ts) (hinv : LexInv ind rtoks) :
    ClosedStream ts := by
  simp only [lexStep] at h
  repeat' split at h
  all_goals cases h
  all_goals first
    | exact assignEofToken_spec hinv
    | exact assignEofToken_spec (inv_indentToks _ hinv)
    | exact assignEofToken_spec (inv_lineStartAdjust _ _ _ hinv)
    | exact assignEofToken_spec (inv_push _ (by simp)
        (by simp) (by simp) (inv_lineStartAdjust _ _ _ hinv))

theorem loadTokens_spec : ∀ (f : Nat) (input : List Char) (ind : Nat)
    (rtoks : List Token) (ts : List Token),
    LexInv ind rtoks → loadTokens f input ind rtoks = .ok ts →
      ClosedStream ts := by
  intro f
  induction f with
  | zero => intro input ind rtoks ts _ h; exact (nomatch h)
  | succ f ih =>
    intro input ind rtoks ts hinv h
    rw [loadTokens] at h
    rcases hstep : lexStep input ind rtoks with ts' | ab | ⟨i2, n2, r2⟩ <;>
      simp only [hstep] at h
    · cases h
      exact lexStep_done_spec hstep hinv
    · cases h
    · exact ih i2 n2 r2 ts (lexStep_more_inv hstep hinv) h

/-- **C3 (amended).** For every input on which the lexer completes with a
token stream `ts` (unknown characters make the C++ loop spin forever and an
overflowing literal aborts through `std::stoi`, so those inputs yield no
stream), `ts` has equally many `Indent` and `Dedent` tokens and exactly one
`Eof`; moreover `ts` ends with `Newline`, then zero or more `Dedent`s, then
`Eof` — except that an input that produces no token at all (the empty input
among them) yields exactly `[Eof]`, with no closing `Newline`. -/
theorem c3_lexer_stream_closure (input : List Char) (ts : List Token)
    (h : lexAll input = .ok ts) :
    ts.count Token.indent = ts.count Token.dedent ∧
    ts.count Token.eof = 1 ∧
    (ts = [Token.eof] ∨
      ∃ pre k, ts = pre ++ Token.newline ::
        (List.replicate k Token.dedent ++ [Token.eof])) := by
  unfold lexAll at h
  cases hl : loadTokens (input.length + 1) input 0 [] with
  | error ab => rw [hl] at h; cases h
  | ok rts =>
    rw [hl] at h
    simp only [Except.map] at h
    cases h
    obtain ⟨h1, h2, h3⟩ :=
      loadTokens_spec (input.length + 1) input 0 [] rts
        ⟨by simp, by simp⟩ hl
    refine ⟨by simpa [List.count_reverse] using h1,
      by simpa [List.count_reverse] using h2, ?_⟩
    rcases h3 with h3 | ⟨k, rest, h3⟩
    · left; rw [h3]; rfl
    · right
      refine ⟨rest.reverse, k, ?_⟩
      rw [h3]
      simp [List.reverse_append, List.reverse_replicate]

/-- **C3 (counterexample).** On the empty input the stream is exactly
`[Eof]`: it contains no `Newline` at all, so it does not end with `Newline`
followed by `Dedent`s and `Eof`, contradicting the claim's "in particular
this holds for the empty input". -/
theorem c3_lexer_stream_closure_counterexample :
    lexAll [] = .ok [Token.eof] ∧
      [Token.eof].count Token.newline = 0 := by
  constructor
  · rfl
  · decide

/-- **C3 (witness).** The amended closure property, instantiated on the
one-character input `"x"`, whose stream is `Id "x", Newline, Eof`. -/
theorem c3_lexer_stream_closure_witness :
    lexAll ['x'] = .ok [Token.id "x", Token.newline, Token.eof] ∧
    ([Token.id "x", Token.newline, Token.eof].count Token.indent =
        [Token.id "x", Token.newline, Token.eof].count Token.dedent ∧
      [Token.id "x", Token.newline, Token.eof].count Token.eof = 1 ∧
      ([Token.id "x", Token.newline, Token.eof] = [Token.eof] ∨
        ∃ pre k, [Token.id "x", Token.newline, Token.eof] =
          pre ++ Token.newline ::
            (List.replicate k Token.dedent ++ [Token.eof]))) :=
  ⟨rfl, c3_lexer_stream_closure ['x'] [Token.id "x", Token.newline, Token.eof]
    rfl⟩

/-- **C9.** The claim (with the spec) demands a `LexerError` for an
overflowing numeric literal and for a character matching no production rule.
The source does neither: on `"@"` the `while (true)` loop of `LoadTokens`
matches no rule and never consumes the character, spinning forever without
raising anything (`stuck`), and on a 10-digit literal above `INT_MAX` the
`std::stoi` call throws `std::out_of_range`, which is not a `LexerError`
(`overflow`).  The embedding records both aborts, and neither is a lexer
error, confirming the divergence the spec itself flags. -/
theorem c9_no_lexer_error_on_bad_input :
    lexAll ['@'] = .error .stuck ∧
    lexAll ['9', '9', '9', '9', '9', '9', '9', '9', '9', '9'] =
      .error .overflow := by
  constructor
  · rfl
  · rfl

/-! ## Part 2: runtime value model (`runtime.cpp`) and AST evaluator
(`statement.cpp`)

Classes are immutable after creation (`runtime::Class` stores its methods and
a parent pointer), so `ClassT` carries its parent chain directly, mirroring
the C++ pointer structure.  `ClassInstance`s are mutable and shared through
`ObjectHolder`s, so they live on an explicit heap addressed by `Nat`; sharing
a holder is sharing the address.  A `Closure`
(`unordered_map<string, ObjectHolder>`) is an association list; the map order
is irrelevant because the code only looks up, inserts and overwrites.

The comparator argument of `ast::Comparison` (a `std::function` the parser
picks from `runtime::Equal`, `Less`, …) is the tag `Cmp`. -/

/-- The comparator passed to `ast::Comparison`. -/
inductive Cmp
  | eq
  | notEq
  | less
  | greater
  | lessOrEq
  | greaterOrEq

mutual
/-- The AST statement variants of `statement.h` (`ast` namespace).  `Print`
and `Stringify` only render values to the context's output stream and are
not needed by any claim, so they are not modelled.  `FieldAssignment` stores
a `VariableValue` (its dotted id list) as in the C++ constructor;
`NewInstance` and `ClassDefinition` reference the `runtime::Class` they were
built with. -/
inductive Stmt
  | varValue (ids : List String)
  | assign (var : String) (rv : Stmt)
  | fieldAssign (objIds : List String) (fieldName : String) (rv : Stmt)
  | constNum (n : Int)
  | constStr (s : String)
  | constBool (b : Bool)
  | noneLit
  | methodCall (obj : Stmt) (method : String) (args : List Stmt)
  | newInstance (cls : ClassT) (args : List Stmt)
  | add (lhs rhs : Stmt)
  | sub (lhs rhs : Stmt)
  | mult (lhs rhs : Stmt)
  | div (lhs rhs : Stmt)
  | orOp (lhs rhs : Stmt)
  | andOp (lhs rhs : Stmt)
  | notOp (argument : Stmt)
  | compound (statements : List Stmt)
  | methodBody (body : Stmt)
  | ret (statement : Stmt)
  | classDef (cls : ClassT)
  | ifElse (condition ifBody : Stmt) (elseBody : Option Stmt)
  | comparison (cmp : Cmp) (lhs rhs : Stmt)

/-- `runtime::Class`: name, method list, optional parent. -/
inductive ClassT
  | mk (name : String) (methods : List MethodT) (parent : Option ClassT)

/-- `runtime::Method`: name, formal parameter names, body. -/
inductive MethodT
  | mk (name : String) (formalParams : List String) (body : Stmt)
end

def ClassT.name : ClassT → String
  | .mk n _ _ => n

def ClassT.methods : ClassT → List MethodT
  | .mk _ ms _ => ms

def MethodT.name : MethodT → String
  | .mk n _ _ => n

def MethodT.formalParams : MethodT → List String
  | .mk _ ps _ => ps

def MethodT.body : MethodT → Stmt
  | .mk _ _ b => b

/-- The runtime value variants (`runtime::Number/String/Bool/Class/
ClassInstance`).  An instance value is its heap address, so every holder of
the same instance shares the same mutable fields. -/
inductive Value
  | num (n : Int)
  | str (s : String)
  | bool (b : Bool)
  | cls (c : ClassT)
  | inst (a : Nat)

/-- `runtime::ObjectHolder`: either empty (`ObjectHolder::None`) or a handle
to a value.  `Own` versus `Share` is not observable in the model: primitives
are immutable and instances are addresses. -/
abbrev Holder := Option Value

/-- `runtime::Closure` (`unordered_map<string, ObjectHolder>`). -/
abbrev Closure := List (String × Holder)

/-- A heap cell: one `runtime::ClassInstance` (class reference plus field
map; the constructor seeds the field map with `self`). -/
structure InstData where
  cls : ClassT
  fields : Closure

abbrev Heap := List InstData

/-- `closure.count(n) > 0` / `closure.at(n)` combined. -/
def closLookup : Closure → String → Option Holder
  | [], _ => none
  | (k, v) :: rest, n => if k = n then some v else closLookup rest n

/-- `closure[n] = h`: overwrite or insert. -/
def closInsert : Closure → String → Holder → Closure
  | [], n, h => [(n, h)]
  | (k, v) :: rest, n, h =>
    if k = n then (n, h) :: rest else (k, v) :: closInsert rest n h

/-- `runtime::IsTrue` (runtime.cpp): false for an empty holder, a `Class`,
a `ClassInstance`, `Bool(false)`, `Number(0)` and `String("")`; otherwise
the value's own truth. -/
def IsTrue : Holder → Bool
  | none => false
  | some (Value.cls _) => false
  | some (Value.inst _) => false
  | some (Value.bool b) => b
  | some (Value.num n) => if n = 0 then false else true
  | some (Value.str s) => if s = "" then false else true

/-- `std::find_if` over the method list of one class: first method with the
given name. -/
def findMethod : List MethodT → String → Option MethodT
  | [], _ => none
  | m :: ms, n => if m.name = n then some m else findMethod ms n

/-- `runtime::Class::GetMethod`: own methods first, then the parent chain. -/
def getMethod : ClassT → String → Option MethodT
  | .mk _ ms p, n =>
    match findMethod ms n with
    | some m => some m
    | none =>
      match p with
      | some par => getMethod par n
      | none => none

/-- `runtime::ClassInstance::HasMethod`: lookup finds a method whose formal
parameter count equals the argument count. -/
def hasMethod (c : ClassT) (method : String) (argc : Nat) : Bool :=
  match getMethod c method with
  | some m => m.formalParams.length == argc
  | none => false

/-- `HasMethod` through a heap address (instance's class). -/
def hasMethodAt (hp : Heap) (a : Nat) (method : String) (argc : Nat) :
    Bool :=
  match hp[a]? with
  | some i => hasMethod i.cls method argc
  | none => false

/-- `Fields()[name]` as a read: `unordered_map::operator[]`
default-constructs and inserts an empty holder when the key is absent, and
returns the mapped holder.  (An address outside the heap cannot arise from
execution; the C++ instance pointer is always valid.) -/
def instGetField (hp : Heap) (a : Nat) (fieldName : String) :
    Holder × Heap :=
  match hp[a]? with
  | none => (none, hp)
  | some i =>
    match closLookup i.fields fieldName with
    | some h => (h, hp)
    | none => (none, hp.set a ⟨i.cls, closInsert i.fields fieldName none⟩)

/-- `Fields()[name] = h`: overwrite or insert the field. -/
def instSetField (hp : Heap) (a : Nat) (fieldName : String) (h : Holder) :
    Heap :=
  match hp[a]? with
  | none => hp
  | some i => hp.set a ⟨i.cls, closInsert i.fields fieldName h⟩

/-- Outcome of executing a statement: normal completion (`val`), a thrown
`ObjectHolder` — the `Return` unwind (`ret`) — or a thrown
`std::runtime_error` (`err`).  The `ret`/`err` outcomes must stay distinct:
only `MethodBody` catches the former and nothing catches the latter. -/
inductive EOut (α : Type)
  | val (a : α)
  | ret (h : Holder)
  | err (msg : String)

/-- The `for` loop of `VariableValue::Execute`: follow the dotted chain,
reading each field with `Fields()[…]` (which inserts an empty holder for a
missing key); a non-instance intermediate throws `"No fields for object!"`. -/
def varChain : Holder → List String → Heap → EOut Holder × Heap
  | h, [], hp => (.val h, hp)
  | h, n :: ns, hp =>
    match h with
    | some (Value.inst a) =>
      match instGetField hp a n with
      | (h2, hp2) => varChain h2 ns hp2
    | _ => (.err "No fields for object!", hp)

/-- The loop of `ClassInstance::Call` binding each formal parameter to the
corresponding actual argument (sizes are equal when called, `HasMethod`
having been checked). -/
def bindParams : Closure → List String → List Holder → Closure
  | cl, p :: ps, h :: hs => bindParams (closInsert cl p h) ps hs
  | cl, _, _ => cl

/-- `ast::GetFunctionResult<Number, Number>` (statement.h): both operands
must hold `Number`s. -/
def getFunNum (l r : Holder) (op : Int → Int → Int) : Option Int :=
  match l, r with
  | some (Value.num a), some (Value.num b) => some (op a b)
  | _, _ => none

/-- `ast::GetFunctionResult<String, String>`. -/
def getFunStr (l r : Holder) (op : String → String → String) :
    Option String :=
  match l, r with
  | some (Value.str a), some (Value.str b) => some (op a b)
  | _, _ => none

/-- `runtime::CompareObjects`: same primitive kind on both sides (`Bool`,
then `Number`, then `String`), else no comparison. -/
def compareObjects (l r : Holder) (cb : Bool → Bool → Bool)
    (cn : Int → Int → Bool) (cs : String → String → Bool) : Option Bool :=
  match l, r with
  | some (Value.bool a), some (Value.bool b) => some (cb a b)
  | some (Value.num a), some (Value.num b) => some (cn a b)
  | some (Value.str a), some (Value.str b) => some (cs a b)
  | _, _ => none

/-- Exception propagation of C++: a `ret` or `err` produced by a
subexpression unwinds past the rest of the enclosing node, keeping the
side effects (closure and heap) performed so far. -/
def eBind {α β : Type} :
    Option (EOut α × Closure × Heap) →
    (α → Closure → Heap → Option (EOut β × Closure × Heap)) →
    Option (EOut β × Closure × Heap)
  | none, _ => none
  | some (.val a, cl, hp), k => k a cl hp
  | some (.ret h, cl, hp), _ => some (.ret h, cl, hp)
  | some (.err m, cl, hp), _ => some (.err m, cl, hp)

/-- A `ClassInstance::Call` result re-joined with the caller's closure
(the call ran on its own local closure). -/
def liftCall (cl : Closure) :
    Option (EOut Holder × Heap) → Option (EOut Holder × Closure × Heap)
  | none => none
  | some (out, hp) => some (out, cl, hp)

/-- Negation of a comparison result (`!Equal`, `!Less`, `!LessOrEqual`),
passing unwinds through. -/
def notB : Option (EOut Bool × Heap) → Option (EOut Bool × Heap)
  | none => none
  | some (.val b, hp) => some (.val (!b), hp)
  | some (.ret h, hp) => some (.ret h, hp)
  | some (.err m, hp) => some (.err m, hp)

mutual

/-- `Statement::Execute` for every node of `statement.cpp`, fuel-indexed
(`none` is fuel exhaustion, which a large enough fuel avoids for any
terminating run).  The closure is passed by reference in C++ and is
returned updated here; the heap carries the mutable instances. -/
def exec : Nat → Stmt → Closure → Heap →
    Option (EOut Holder × Closure × Heap)
  | 0, _, _, _ => none
  | f+1, stmt, cl, hp =>
    match stmt with
    | Stmt.varValue ids =>
      -- VariableValue::Execute
      match ids with
      | [] => none  -- var_names_[0] on an empty vector: undefined behavior
      | n :: rest =>
        match closLookup cl n with
        | none => some (.err "No variable!", cl, hp)
        | some h =>
          match varChain h rest hp with
          | (out, hp2) => some (out, cl, hp2)
    | Stmt.assign v rv =>
      -- Assignment::Execute: closure[var_] = rv_->Execute(...); return it
      eBind (exec f rv cl hp) fun h cl2 hp2 =>
        some (.val h, closInsert cl2 v h, hp2)
    | Stmt.fieldAssign objIds fld rv =>
      -- FieldAssignment::Execute.  C++17 sequences the right operand of the
      -- assignment before the left; the return statement then re-executes
      -- object_ and reads the field back with operator[].  A non-instance
      -- object is a null-pointer dereference in the source.
      eBind (exec f rv cl hp) fun hv cl1 hp1 =>
      eBind (exec f (Stmt.varValue objIds) cl1 hp1) fun hobj cl2 hp2 =>
      match hobj with
      | some (Value.inst a) =>
        eBind (exec f (Stmt.varValue objIds) cl2
            (instSetField hp2 a fld hv)) fun hobj2 cl3 hp4 =>
        match hobj2 with
        | some (Value.inst a2) =>
          match instGetField hp4 a2 fld with
          | (hres, hp5) => some (.val hres, cl3, hp5)
        | _ => none
      | _ => none
    | Stmt.constNum n => some (.val (some (Value.num n)), cl, hp)
    | Stmt.constStr s => some (.val (some (Value.str s)), cl, hp)
    | Stmt.constBool b => some (.val (some (Value.bool b)), cl, hp)
    | Stmt.noneLit => some (.val none, cl, hp)
    | Stmt.methodCall obj method args =>
      -- MethodCall::Execute: silently empty when the target is not an
      -- instance or the method is missing / of the wrong arity
      eBind (exec f obj cl hp) fun hobj cl1 hp1 =>
      match hobj with
      | some (Value.inst a) =>
        if hasMethodAt hp1 a method args.length then
          eBind (execArgs f args cl1 hp1) fun vs cl2 hp2 =>
            liftCall cl2 (callMethod f a method vs hp2)
        else some (.val none, cl1, hp1)
      | _ => some (.val none, cl1, hp1)
    | Stmt.newInstance c args =>
      -- NewInstance::Execute: allocate first (the ClassInstance constructor
      -- seeds the field map with self), call __init__ only when its arity
      -- matches the argument count, return the owning holder
      match hasMethod c "__init__" args.length with
      | true =>
        eBind (execArgs f args cl
            (hp ++ [⟨c, [("self", some (Value.inst hp.length))]⟩]))
          fun vs cl2 hp2 =>
          match callMethod f hp.length "__init__" vs hp2 with
          | none => none
          | some (.val _, hp3) =>
            some (.val (some (Value.inst hp.length)), cl2, hp3)
          | some (.ret h, hp3) => some (.ret h, cl2, hp3)
          | some (.err m, hp3) => some (.err m, cl2, hp3)
      | false =>
        some (.val (some (Value.inst hp.length)), cl,
          hp ++ [⟨c, [("self", some (Value.inst hp.length))]⟩])
    | Stmt.add lhs rhs =>
      -- Add::Execute: Number+Number, then String+String, then __add__
      eBind (exec f lhs cl hp) fun hl cl1 hp1 =>
      eBind (exec f rhs cl1 hp1) fun hr cl2 hp2 =>
      match getFunNum hl hr (fun a b => a + b) with
      | some n => some (.val (some (Value.num n)), cl2, hp2)
      | none =>
        match getFunStr hl hr (fun a b => a ++ b) with
        | some s => some (.val (some (Value.str s)), cl2, hp2)
        | none =>
          match hl with
          | some (Value.inst a) =>
            if hasMethodAt hp2 a "__add__" 1 then
              liftCall cl2 (callMethod f a "__add__" [hr] hp2)
            else some (.err "Arguments are not executable!", cl2, hp2)
          | _ => some (.err "Arguments are not executable!", cl2, hp2)
    | Stmt.sub lhs rhs =>
      eBind (exec f lhs cl hp) fun hl cl1 hp1 =>
      eBind (exec f rhs cl1 hp1) fun hr cl2 hp2 =>
      match getFunNum hl hr (fun a b => a - b) with
      | some n => some (.val (some (Value.num n)), cl2, hp2)
      | none => some (.err "Arguments are not executable!", cl2, hp2)
    | Stmt.mult lhs rhs =>
      eBind (exec f lhs cl hp) fun hl cl1 hp1 =>
      eBind (exec f rhs cl1 hp1) fun hr cl2 hp2 =>
      match getFunNum hl hr (fun a b => a * b) with
      | some n => some (.val (some (Value.num n)), cl2, hp2)
      | none => some (.err "Arguments are not executable!", cl2, hp2)
    | Stmt.div lhs rhs =>
      -- Div::Execute: the divisor is checked (Number, nonzero) before the
      -- quotient is computed; C++ int division truncates toward zero
      eBind (exec f lhs cl hp) fun hl cl1 hp1 =>
      eBind (exec f rhs cl1 hp1) fun hr cl2 hp2 =>
      match hr with
      | some (Value.num d) =>
        if d = 0 then some (.err "Division by zero!", cl2, hp2)
        else
          match getFunNum hl hr (fun a b => Int.tdiv a b) with
          | some q => some (.val (some (Value.num q)), cl2, hp2)
          | none =>
            some (.err "Argument (dividend) is not executable!", cl2, hp2)
      | _ => some (.err "Divisor is not defined!", cl2, hp2)
    | Stmt.orOp lhs rhs =>
      -- Or::Execute: rhs evaluated only when lhs is not truthy
      eBind (exec f lhs cl hp) fun hl cl1 hp1 =>
      if IsTrue hl then some (.val (some (Value.bool true)), cl1, hp1)
      else
        eBind (exec f rhs cl1 hp1) fun hr cl2 hp2 =>
          some (.val (some (Value.bool (IsTrue hr))), cl2, hp2)
    | Stmt.andOp lhs rhs =>
      -- And::Execute: rhs evaluated only when lhs is truthy
      eBind (exec f lhs cl hp) fun hl cl1 hp1 =>
      if !IsTrue hl then some (.val (some (Value.bool false)), cl1, hp1)
      else
        eBind (exec f rhs cl1 hp1) fun hr cl2 hp2 =>
          some (.val (some (Value.bool (IsTrue hr))), cl2, hp2)
    | Stmt.notOp argument =>
      eBind (exec f argument cl hp) fun h cl1 hp1 =>
        some (.val (some (Value.bool (!IsTrue h))), cl1, hp1)
    | Stmt.compound stmts => execSeq f stmts cl hp
    | Stmt.methodBody body =>
      -- MethodBody::Execute: catch a thrown ObjectHolder, return it;
      -- anything else (normal end → empty holder; runtime_error) passes
      match exec f body cl hp with
      | none => none
      | some (.val _, cl1, hp1) => some (.val none, cl1, hp1)
      | some (.ret h, cl1, hp1) => some (.val h, cl1, hp1)
      | some (.err m, cl1, hp1) => some (.err m, cl1, hp1)
    | Stmt.ret statement =>
      -- Return::Execute: throw statement_->Execute(...)
      eBind (exec f statement cl hp) fun h cl1 hp1 =>
        some (.ret h, cl1, hp1)
    | Stmt.classDef c =>
      some (.val none, closInsert cl c.name (some (Value.cls c)), hp)
    | Stmt.ifElse condition ifBody elseBody =>
      eBind (exec f condition cl hp) fun hc cl1 hp1 =>
      if IsTrue hc then exec f ifBody cl1 hp1
      else
        match elseBody with
        | some e1 => exec f e1 cl1 hp1
        | none => some (.val none, cl1, hp1)
    | Stmt.comparison cmp lhs rhs =>
      eBind (exec f lhs cl hp) fun hl cl1 hp1 =>
      eBind (exec f rhs cl1 hp1) fun hr cl2 hp2 =>
      match applyCmp f cmp hl hr hp2 with
      | none => none
      | some (.val b, hp3) => some (.val (some (Value.bool b)), cl2, hp3)
      | some (.ret h, hp3) => some (.ret h, cl2, hp3)
      | some (.err m, hp3) => some (.err m, cl2, hp3)

/-- The argument-evaluation loops of `MethodCall::Execute` and
`NewInstance::Execute`: left to right, exceptions propagate. -/
def execArgs : Nat → List Stmt → Closure → Heap →
    Option (EOut (List Holder) × Closure × Heap)
  | 0, _, _, _ => none
  | _+1, [], cl, hp => some (.val [], cl, hp)
  | f+1, s :: rest, cl, hp =>
    eBind (exec f s cl hp) fun h cl2 hp2 =>
      eBind (execArgs f rest cl2 hp2) fun hs cl3 hp3 =>
        some (.val (h :: hs), cl3, hp3)

/-- The statement loop of `Compound::Execute`: run each statement,
discarding its result; return an empty holder. -/
def execSeq : Nat → List Stmt → Closure → Heap →
    Option (EOut Holder × Closure × Heap)
  | 0, _, _, _ => none
  | _+1, [], cl, hp => some (.val none, cl, hp)
  | f+1, s :: rest, cl, hp =>
    eBind (exec f s cl hp) fun _ cl2 hp2 => execSeq f rest cl2 hp2

/-- `runtime::ClassInstance::Call`: requires a method of matching arity
(else `runtime_error "Not implemented"`); builds a fresh local closure with
`self` bound to a share of the instance and the formal parameters bound
positionally; executes the method body against it.  The local closure is
discarded; heap effects persist. -/
def callMethod : Nat → Nat → String → List Holder → Heap →
    Option (EOut Holder × Heap)
  | 0, _, _, _, _ => none
  | f+1, a, method, actualArgs, hp =>
    match hp[a]? with
    | none => some (.err "Not implemented", hp)
    | some i =>
      if hasMethod i.cls method actualArgs.length then
        match getMethod i.cls method with
        | none => some (.err "Not implemented", hp)
        | some meth =>
          match exec f meth.body
              (bindParams [("self", some (Value.inst a))]
                meth.formalParams actualArgs) hp with
          | none => none
          | some (out, _, hp2) => some (out, hp2)
      else some (.err "Not implemented", hp)

/-- `runtime::Equal`: a `ClassInstance` on the left dispatches to `__eq__`
(through `Call`, which raises when the method is missing or of the wrong
arity), coercing the result with `IsTrue`; otherwise equal primitives of the
same kind compare natively; two empty holders are equal; anything else
raises. -/
def Equal : Nat → Holder → Holder → Heap → Option (EOut Bool × Heap)
  | 0, _, _, _ => none
  | f+1, lhs, rhs, hp =>
    match lhs with
    | some (Value.inst a) =>
      match callMethod f a "__eq__" [rhs] hp with
      | none => none
      | some (.val h, hp2) => some (.val (IsTrue h), hp2)
      | some (.ret h, hp2) => some (.ret h, hp2)
      | some (.err m, hp2) => some (.err m, hp2)
    | _ =>
      match compareObjects lhs rhs (fun a b => a == b) (fun a b => a == b)
          (fun a b => a == b) with
      | some b => some (.val b, hp)
      | none =>
        match lhs, rhs with
        | none, none => some (.val true, hp)
        | _, _ => some (.err "Cannot compare objects for equality", hp)

/-- `runtime::Less`: as `Equal` but through `__lt__` and the native strict
orders, with no empty-empty case. -/
def Less : Nat → Holder → Holder → Heap → Option (EOut Bool × Heap)
  | 0, _, _, _ => none
  | f+1, lhs, rhs, hp =>
    match lhs with
    | some (Value.inst a) =>
      match callMethod f a "__lt__" [rhs] hp with
      | none => none
      | some (.val h, hp2) => some (.val (IsTrue h), hp2)
      | some (.ret h, hp2) => some (.ret h, hp2)
      | some (.err m, hp2) => some (.err m, hp2)
    | _ =>
      match compareObjects lhs rhs (fun a b => !a && b)
          (fun a b => decide (a < b)) (fun a b => decide (a < b)) with
      | some b => some (.val b, hp)
      | none => some (.err "Cannot compare objects for less", hp)

/-- `runtime::NotEqual ≡ !Equal`. -/
def NotEqual : Nat → Holder → Holder → Heap → Option (EOut Bool × Heap)
  | 0, _, _, _ => none
  | f+1, lhs, rhs, hp => notB (Equal f lhs rhs hp)

/-- `runtime::Greater ≡ !LessOrEqual`. -/
def Greater : Nat → Holder → Holder → Heap → Option (EOut Bool × Heap)
  | 0, _, _, _ => none
  | f+1, lhs, rhs, hp => notB (LessOrEqual f lhs rhs hp)

/-- `runtime::LessOrEqual ≡ Less || Equal` (short-circuit: `Equal` runs
only when `Less` returns false). -/
def LessOrEqual : Nat → Holder → Holder → Heap → Option (EOut Bool × Heap)
  | 0, _, _, _ => none
  | f+1, lhs, rhs, hp =>
    match Less f lhs rhs hp with
    | none => none
    | some (.val true, hp2) => some (.val true, hp2)
    | some (.val false, hp2) => Equal f lhs rhs hp2
    | some (.ret h, hp2) => some (.ret h, hp2)
    | some (.err m, hp2) => some (.err m, hp2)

/-- `runtime::GreaterOrEqual ≡ !Less`. -/
def GreaterOrEqual : Nat → Holder → Holder → Heap →
    Option (EOut Bool × Heap)
  | 0, _, _, _ => none
  | f+1, lhs, rhs, hp => notB (Less f lhs rhs hp)

/-- Dispatch of the comparator tag stored in an `ast::Comparison` node. -/
def applyCmp : Nat → Cmp → Holder → Holder → Heap →
    Option (EOut Bool × Heap)
  | 0, _, _, _, _ => none
  | f+1, c, lhs, rhs, hp =>
    match c with
    | Cmp.eq => Equal f lhs rhs hp
    | Cmp.notEq => NotEqual f lhs rhs hp
    | Cmp.less => Less f lhs rhs hp
    | Cmp.greater => Greater f lhs rhs hp
    | Cmp.lessOrEq => LessOrEqual f lhs rhs hp
    | Cmp.greaterOrEq => GreaterOrEqual f lhs rhs hp

end

/-! ## Sample classes used by concrete instantiations -/

/-- A class with no methods (the spec's `Person` whose fields are set only
from outside). -/
def sampleCls : ClassT := ClassT.mk "Person" [] none

/-- A class whose `__init__(n)` stores its argument in field `n`. -/
def initCls : ClassT :=
  ClassT.mk "P"
    [MethodT.mk "__init__" ["n"]
      (Stmt.methodBody (Stmt.compound
        [Stmt.fieldAssign ["self"] "n" (Stmt.varValue ["n"])]))]
    none

/-- A class whose `__eq__(o)` returns the number 1 (truthy). -/
def eqCls : ClassT :=
  ClassT.mk "E"
    [MethodT.mk "__eq__" ["o"]
      (Stmt.methodBody (Stmt.ret (Stmt.constNum 1)))]
    none

/-! ## Claim theorems over the evaluator -/

/-- **C5.** `IsTrue h` is false exactly when `h` is empty, holds a `Class`,
holds a `ClassInstance`, holds `Bool(false)`, `Number(0)`, or `String("")`;
for every other held value it is true. -/
theorem c5_istrue_false_iff (h : Holder) :
    IsTrue h = false ↔
      (h = none ∨ (∃ c, h = some (Value.cls c)) ∨
        (∃ a, h = some (Value.inst a)) ∨ h = some (Value.bool false) ∨
        h = some (Value.num 0) ∨ h = some (Value.str "")) := by
  rcases h with _ | v
  · simp [IsTrue]
  · cases v with
    | num n => by_cases hn : n = 0 <;> simp [IsTrue, hn]
    | str s => by_cases hs : s = "" <;> simp [IsTrue, hs]
    | bool b => cases b <;> simp [IsTrue]
    | cls c => simp [IsTrue]
    | inst a => simp [IsTrue]

/-- **C10.** For `Number` operands with a nonzero divisor, `Div` yields the
quotient truncated toward zero (C++ `int` division, `Int.tdiv`); and the
zero-divisor check fires before the quotient — indeed before the dividend is
even inspected, as a zero divisor raises `"Division by zero!"` no matter
what the dividend holds (second and third conjuncts). -/
theorem c10_div_truncation_and_zero_check :
    (∀ (f : Nat) (a b : Int) (cl : Closure) (hp : Heap), b ≠ 0 →
      exec (f+2) (Stmt.div (Stmt.constNum a) (Stmt.constNum b)) cl hp =
        some (.val (some (Value.num (Int.tdiv a b))), cl, hp)) ∧
    (∀ (f : Nat) (a : Int) (cl : Closure) (hp : Heap),
      exec (f+2) (Stmt.div (Stmt.constNum a) (Stmt.constNum 0)) cl hp =
        some (.err "Division by zero!", cl, hp)) ∧
    (∀ (f : Nat) (s : String) (cl : Closure) (hp : Heap),
      exec (f+2) (Stmt.div (Stmt.constStr s) (Stmt.constNum 0)) cl hp =
        some (.err "Division by zero!", cl, hp)) := by
  refine ⟨?_, ?_, ?_⟩
  · intro f a b cl hp hb
    simp [exec, eBind, getFunNum, hb]
  · intro f a cl hp
    simp [exec, eBind]
  · intro f s cl hp
    simp [exec, eBind]

/-- **C10 (witness).** `Div(-7, 2)` yields `-3` (truncation toward zero, not
`-4`), and `Div("s", 0)` raises the zero-division error even though the
dividend is not a number. -/
theorem c10_div_truncation_and_zero_check_witness :
    exec 2 (Stmt.div (Stmt.constNum (-7)) (Stmt.constNum 2)) [] [] =
      some (.val (some (Value.num (-3))), [], []) ∧
    exec 2 (Stmt.div (Stmt.constStr "s") (Stmt.constNum 0)) [] [] =
      some (.err "Division by zero!", [], []) := by
  constructor
  · have h := c10_div_truncation_and_zero_check.1 0 (-7) 2 [] []
      (by decide)
    have ht : Int.tdiv (-7) 2 = -3 := by decide
    rw [ht] at h
    exact h
  · exact c10_div_truncation_and_zero_check.2.2 0 "s" [] []

/-- **C2.** `Or` evaluates its left operand; when that value is truthy it
returns `Bool(true)` with exactly the state the left evaluation produced —
for *every* right operand, so none of the right side's effects or errors can
occur — and otherwise it returns `Bool(IsTrue(right))`.  Dually, `And`
returns `Bool(false)` without touching the right operand when the left is
not truthy, and `Bool(IsTrue(right))` otherwise. -/
theorem c2_or_and_short_circuit :
    (∀ (f : Nat) (lhs rhs : Stmt) (cl cl1 : Closure) (hp hp1 : Heap)
        (h : Holder),
      exec f lhs cl hp = some (.val h, cl1, hp1) → IsTrue h = true →
        exec (f+1) (Stmt.orOp lhs rhs) cl hp =
          some (.val (some (Value.bool true)), cl1, hp1)) ∧
    (∀ (f : Nat) (lhs rhs : Stmt) (cl cl1 cl2 : Closure)
        (hp hp1 hp2 : Heap) (h h2 : Holder),
      exec f lhs cl hp = some (.val h, cl1, hp1) → IsTrue h = false →
        exec f rhs cl1 hp1 = some (.val h2, cl2, hp2) →
        exec (f+1) (Stmt.orOp lhs rhs) cl hp =
          some (.val (some (Value.bool (IsTrue h2))), cl2, hp2)) ∧
    (∀ (f : Nat) (lhs rhs : Stmt) (cl cl1 : Closure) (hp hp1 : Heap)
        (h : Holder),
      exec f lhs cl hp = some (.val h, cl1, hp1) → IsTrue h = false →
        exec (f+1) (Stmt.andOp lhs rhs) cl hp =
          some (.val (some (Value.bool false)), cl1, hp1)) ∧
    (∀ (f : Nat) (lhs rhs : Stmt) (cl cl1 cl2 : Closure)
        (hp hp1 hp2 : Heap) (h h2 : Holder),
      exec f lhs cl hp = some (.val h, cl1, hp1) → IsTrue h = true →
        exec f rhs cl1 hp1 = some (.val h2, cl2, hp2) →
        exec (f+1) (Stmt.andOp lhs rhs) cl hp =
          some (.val (some (Value.bool (IsTrue h2))), cl2, hp2)) := by
  refine ⟨?_, ?_, ?_, ?_⟩
  · intro f lhs rhs cl cl1 hp hp1 h h1 ht
    simp [exec, eBind, h1, ht]
  · intro f lhs rhs cl cl1 cl2 hp hp1 hp2 h h2 h1 ht h3
    simp [exec, eBind, h1, ht, h3]
  · intro f lhs rhs cl cl1 hp hp1 h h1 ht
    simp [exec, eBind, h1, ht]
  · intro f lhs rhs cl cl1 cl2 hp hp1 hp2 h h2 h1 ht h3
    simp [exec, eBind, h1, ht, h3]

/-- **C2 (witness).** `True or zz` returns `Bool(true)` leaving the state
untouched even though evaluating the unbound `zz` would raise; `False or 5`
returns `Bool(true)` (5 is truthy); `False and zz` returns `Bool(false)`;
`True and 0` returns `Bool(false)` (0 is falsy). -/
theorem c2_or_and_short_circuit_witness :
    exec 2 (Stmt.orOp (Stmt.constBool true) (Stmt.varValue ["zz"])) [] [] =
      some (.val (some (Value.bool true)), [], []) ∧
    exec 2 (Stmt.orOp (Stmt.constBool false) (Stmt.constNum 5)) [] [] =
      some (.val (some (Value.bool true)), [], []) ∧
    exec 2 (Stmt.andOp (Stmt.constBool false) (Stmt.varValue ["zz"])) [] [] =
      some (.val (some (Value.bool false)), [], []) ∧
    exec 2 (Stmt.andOp (Stmt.constBool true) (Stmt.constNum 0)) [] [] =
      some (.val (some (Value.bool false)), [], []) := by
  refine ⟨?_, ?_, ?_, ?_⟩
  · exact c2_or_and_short_circuit.1 1 _ _ [] [] [] [] _ rfl rfl
  · have h := c2_or_and_short_circuit.2.1 1 (Stmt.constBool false)
      (Stmt.constNum 5) [] [] [] [] [] [] _ _ rfl rfl rfl
    exact h
  · exact c2_or_and_short_circuit.2.2.1 1 _ _ [] [] [] [] _ rfl rfl
  · have h := c2_or_and_short_circuit.2.2.2 1 (Stmt.constBool true)
      (Stmt.constNum 0) [] [] [] [] [] [] _ _ rfl rfl rfl
    exact h

/-- **C1.** The `Return`/`MethodBody` contract: `Return(expr)` first
evaluates `expr` and only then unwinds with the resulting holder (an error
inside `expr` propagates as an error, not as a return); the unwind skips
every remaining statement of an enclosing `Compound` (the conclusion holds
for *every* `rest`) and passes through `IfElse` (from the condition or from
the taken branch); `MethodBody` turns the unwind into the method's value,
yields an empty holder when the body finishes without returning, and lets a
runtime error pass unchanged — never as the method's value. -/
theorem c1_return_unwinding :
    (∀ (f : Nat) (e : Stmt) (cl cl1 : Closure) (hp hp1 : Heap) (h : Holder),
      exec f e cl hp = some (.val h, cl1, hp1) →
        exec (f+1) (Stmt.ret e) cl hp = some (.ret h, cl1, hp1)) ∧
    (∀ (f : Nat) (e : Stmt) (cl cl1 : Closure) (hp hp1 : Heap) (m : String),
      exec f e cl hp = some (.err m, cl1, hp1) →
        exec (f+1) (Stmt.ret e) cl hp = some (.err m, cl1, hp1)) ∧
    (∀ (f : Nat) (s : Stmt) (rest : List Stmt) (cl cl1 : Closure)
        (hp hp1 : Heap) (h : Holder),
      exec f s cl hp = some (.ret h, cl1, hp1) →
        exec (f+2) (Stmt.compound (s :: rest)) cl hp =
          some (.ret h, cl1, hp1)) ∧
    (∀ (f : Nat) (s : Stmt) (rest : List Stmt) (cl cl1 : Closure)
        (hp hp1 : Heap) (m : String),
      exec f s cl hp = some (.err m, cl1, hp1) →
        exec (f+2) (Stmt.compound (s :: rest)) cl hp =
          some (.err m, cl1, hp1)) ∧
    (∀ (f : Nat) (c0 tb : Stmt) (eb : Option Stmt) (cl cl1 : Closure)
        (hp hp1 : Heap) (h : Holder),
      exec f c0 cl hp = some (.ret h, cl1, hp1) →
        exec (f+1) (Stmt.ifElse c0 tb eb) cl hp =
          some (.ret h, cl1, hp1)) ∧
    (∀ (f : Nat) (c0 tb : Stmt) (eb : Option Stmt) (cl cl1 cl2 : Closure)
        (hp hp1 hp2 : Heap) (hc h : Holder),
      exec f c0 cl hp = some (.val hc, cl1, hp1) → IsTrue hc = true →
        exec f tb cl1 hp1 = some (.ret h, cl2, hp2) →
        exec (f+1) (Stmt.ifElse c0 tb eb) cl hp =
          some (.ret h, cl2, hp2)) ∧
    (∀ (f : Nat) (body : Stmt) (cl cl1 : Closure) (hp hp1 : Heap)
        (h : Holder),
      exec f body cl hp = some (.ret h, cl1, hp1) →
        exec (f+1) (Stmt.methodBody body) cl hp =
          some (.val h, cl1, hp1)) ∧
    (∀ (f : Nat) (body : Stmt) (cl cl1 : Closure) (hp hp1 : Heap)
        (h : Holder),
      exec f body cl hp = some (.val h, cl1, hp1) →
        exec (f+1) (Stmt.methodBody body) cl hp =
          some (.val none, cl1, hp1)) ∧
    (∀ (f : Nat) (body : Stmt) (cl cl1 : Closure) (hp hp1 : Heap)
        (m : String),
      exec f body cl hp = some (.err m, cl1, hp1) →
        exec (f+1) (Stmt.methodBody body) cl hp =
          some (.err m, cl1, hp1)) := by
  refine ⟨?_, ?_, ?_, ?_, ?_, ?_, ?_, ?_, ?_⟩
  · intro f e cl cl1 hp hp1 h h1
    simp [exec, eBind, h1]
  · intro f e cl cl1 hp hp1 m h1
    simp [exec, eBind, h1]
  · intro f s rest cl cl1 hp hp1 h h1
    simp [exec, execSeq, eBind, h1]
  · intro f s rest cl cl1 hp hp1 m h1
    simp [exec, execSeq, eBind, h1]
  · intro f c0 tb eb cl cl1 hp hp1 h h1
    simp [exec, eBind, h1]
  · intro f c0 tb eb cl cl1 cl2 hp hp1 hp2 hc h h1 ht h2
    simp [exec, eBind, h1, ht, h2]
  · intro f body cl cl1 hp hp1 h h1
    simp [exec, h1]
  · intro f body cl cl1 hp hp1 h h1
    simp [exec, h1]
  · intro f body cl cl1 hp hp1 m h1
    simp [exec, h1]

/-- **C1 (witness).** A method body `return 42; never = 0` yields the value
42 (the assignment after the return is skipped — the final closure is
empty); a body that divides by zero propagates the error out of
`MethodBody`; a body with no `return` yields an empty holder. -/
theorem c1_return_unwinding_witness :
    exec 5 (Stmt.methodBody (Stmt.compound
        [Stmt.ret (Stmt.constNum 42),
         Stmt.assign "never" (Stmt.constNum 0)])) [] [] =
      some (.val (some (Value.num 42)), [], []) ∧
    exec 5 (Stmt.methodBody (Stmt.compound
        [Stmt.div (Stmt.constNum 1) (Stmt.constNum 0)])) [] [] =
      some (.err "Division by zero!", [], []) ∧
    exec 5 (Stmt.methodBody (Stmt.compound
        [Stmt.assign "a" (Stmt.constNum 1)])) [] [] =
      some (.val none, [("a", some (Value.num 1))], []) := by
  refine ⟨?_, ?_, ?_⟩
  · exact c1_return_unwinding.2.2.2.2.2.2.1 4 _ [] [] [] [] _
      (c1_return_unwinding.2.2.1 2 _ _ [] [] [] [] _
        (c1_return_unwinding.1 1 _ [] [] [] [] _ rfl))
  · exact c1_return_unwinding.2.2.2.2.2.2.2.2 4 _ [] [] [] [] _
      (c1_return_unwinding.2.2.2.1 2 _ _ [] [] [] [] _ rfl)
  · exact c1_return_unwinding.2.2.2.2.2.2.2.1 4 _ [] _ [] [] _ rfl

/-- **C4 (counterexample).** Reading `p.name` where the instance bound to
`p` has no field `name` does *not* raise a runtime error: the field map is
read with `unordered_map::operator[]`, which default-constructs an empty
holder, inserts it (note the mutated heap in the result) and returns it, so
the whole chain evaluates to an empty holder. -/
theorem c4_variable_chain_counterexample :
    exec 3 (Stmt.varValue ["p", "name"])
      [("p", some (Value.inst 0))]
      [⟨sampleCls, [("self", some (Value.inst 0))]⟩] =
    some (.val none, [("p", some (Value.inst 0))],
      [⟨sampleCls,
        [("self", some (Value.inst 0)), ("name", none)]⟩]) := rfl

/-- **C4 (amended).** `VariableValue`: a single bound name returns its
holder; an unbound first name raises `"No variable!"`; a non-instance
intermediate raises `"No fields for object!"`; a *missing intermediate*
field raises that same error (the inserted empty holder is not an
instance) — but a *missing final* field raises nothing: it yields an empty
holder and inserts an empty binding into the instance's fields. -/
theorem c4_variable_chain :
    (∀ (f : Nat) (n : String) (cl : Closure) (hp : Heap) (h : Holder),
      closLookup cl n = some h →
        exec (f+1) (Stmt.varValue [n]) cl hp = some (.val h, cl, hp)) ∧
    (∀ (f : Nat) (n : String) (rest : List String) (cl : Closure)
        (hp : Heap),
      closLookup cl n = none →
        exec (f+1) (Stmt.varValue (n :: rest)) cl hp =
          some (.err "No variable!", cl, hp)) ∧
    (∀ (f : Nat) (n m : String) (more : List String) (cl : Closure)
        (hp : Heap) (h : Holder),
      closLookup cl n = some h → (∀ a, h ≠ some (Value.inst a)) →
        exec (f+1) (Stmt.varValue (n :: m :: more)) cl hp =
          some (.err "No fields for object!", cl, hp)) ∧
    (∀ (f : Nat) (n m : String) (a : Nat) (cl : Closure) (hp : Heap)
        (i : InstData),
      closLookup cl n = some (some (Value.inst a)) → hp[a]? = some i →
        closLookup i.fields m = none →
        exec (f+1) (Stmt.varValue [n, m]) cl hp =
          some (.val none, cl,
            hp.set a ⟨i.cls, closInsert i.fields m none⟩)) ∧
    (∀ (f : Nat) (n m k : String) (more : List String) (a : Nat)
        (cl : Closure) (hp : Heap) (i : InstData),
      closLookup cl n = some (some (Value.inst a)) → hp[a]? = some i →
        closLookup i.fields m = none →
        exec (f+1) (Stmt.varValue (n :: m :: k :: more)) cl hp =
          some (.err "No fields for object!", cl,
            hp.set a ⟨i.cls, closInsert i.fields m none⟩)) := by
  refine ⟨?_, ?_, ?_, ?_, ?_⟩
  · intro f n cl hp h h1
    simp [exec, varChain, h1]
  · intro f n rest cl hp h1
    simp [exec, h1]
  · intro f n m more cl hp h h1 hni
    rcases h with _ | v
    · simp [exec, varChain, h1]
    · cases v with
      | inst a => exact absurd rfl (hni a)
      | num x => simp [exec, varChain, h1]
      | str x => simp [exec, varChain, h1]
      | bool x => simp [exec, varChain, h1]
      | cls x => simp [exec, varChain, h1]
  · intro f n m a cl hp i h1 h2 h3
    simp [exec, varChain, instGetField, h1, h2, h3]
  · intro f n m k more a cl hp i h1 h2 h3
    simp [exec, varChain, instGetField, h1, h2, h3]

/-- **C4 (witness).** The amended behaviors on a one-instance heap: a bound
single name, an unbound name, a non-instance intermediate (`x.f` with `x` a
number), and a missing intermediate field (`p.name.z` with `name` absent:
the error *is* raised, via the non-instance check on the inserted empty
holder). -/
theorem c4_variable_chain_witness :
    exec 1 (Stmt.varValue ["p"]) [("p", some (Value.inst 0))]
        [⟨sampleCls, [("self", some (Value.inst 0))]⟩] =
      some (.val (some (Value.inst 0)), [("p", some (Value.inst 0))],
        [⟨sampleCls, [("self", some (Value.inst 0))]⟩]) ∧
    exec 1 (Stmt.varValue ["zz"]) [] [] =
      some (.err "No variable!", [], []) ∧
    exec 1 (Stmt.varValue ["x", "f"]) [("x", some (Value.num 3))] [] =
      some (.err "No fields for object!", [("x", some (Value.num 3))],
        []) ∧
    exec 1 (Stmt.varValue ["p", "name", "z"]) [("p", some (Value.inst 0))]
        [⟨sampleCls, [("self", some (Value.inst 0))]⟩] =
      some (.err "No fields for object!", [("p", some (Value.inst 0))],
        [⟨sampleCls, [("self", some (Value.inst 0)), ("name", none)]⟩]) := by
  refine ⟨?_, ?_, ?_, ?_⟩
  · exact c4_variable_chain.1 0 "p" _ _ _ rfl
  · exact c4_variable_chain.2.1 0 "zz" [] [] [] rfl
  · exact c4_variable_chain.2.2.1 0 "x" "f" [] _ [] _ rfl
      (fun a h => nomatch h)
  · exact c4_variable_chain.2.2.2.2 0 "p" "name" "z" [] 0
      [("p", some (Value.inst 0))]
      [⟨sampleCls, [("self", some (Value.inst 0))]⟩]
      ⟨sampleCls, [("self", some (Value.inst 0))]⟩ rfl rfl rfl

/-- **C7.** Instance sharing: after `p = Person(); q = p; q.name = s`,
both `p` and `q` hold the same heap address 0 (the `Assignment` stores the
very holder the right side produced), and the field written through `q` is
read back through `p` as `s` — mutation through one holder is visible
through every holder of the instance.  The final state is fully explicit:
one heap cell whose fields are the constructor-seeded `self` plus `name`. -/
theorem c7_instance_sharing (s : String) :
    exec 8 (Stmt.compound
        [Stmt.assign "p" (Stmt.newInstance sampleCls []),
         Stmt.assign "q" (Stmt.varValue ["p"]),
         Stmt.fieldAssign ["q"] "name" (Stmt.constStr s)]) [] [] =
      some (.val none,
        [("p", some (Value.inst 0)), ("q", some (Value.inst 0))],
        [⟨sampleCls,
          [("self", some (Value.inst 0)), ("name", some (Value.str s))]⟩]) ∧
    exec 3 (Stmt.varValue ["p", "name"])
        [("p", some (Value.inst 0)), ("q", some (Value.inst 0))]
        [⟨sampleCls,
          [("self", some (Value.inst 0)), ("name", some (Value.str s))]⟩] =
      some (.val (some (Value.str s)),
        [("p", some (Value.inst 0)), ("q", some (Value.inst 0))],
        [⟨sampleCls,
          [("self", some (Value.inst 0)),
            ("name", some (Value.str s))]⟩]) :=
  ⟨rfl, rfl⟩

/-- **C8.** `NewInstance` allocates a fresh owned instance (a new heap cell
at address `hp.length`, seeded by the `ClassInstance` constructor with
`self`) *before* looking at `__init__`.  When the class has no `__init__`
whose formal-parameter count equals the argument count the arguments are
not even evaluated, no error is raised, and the uninitialized instance is
returned (first conjunct); when the arity matches, the arguments are
evaluated and `__init__` is called on the fresh instance, whose holder is
returned with the constructor result discarded (second conjunct). -/
theorem c8_new_instance :
    (∀ (f : Nat) (c : ClassT) (args : List Stmt) (cl : Closure)
        (hp : Heap),
      hasMethod c "__init__" args.length = false →
        exec (f+1) (Stmt.newInstance c args) cl hp =
          some (.val (some (Value.inst hp.length)), cl,
            hp ++ [⟨c, [("self", some (Value.inst hp.length))]⟩])) ∧
    (∀ (f : Nat) (c : ClassT) (args : List Stmt) (cl cl2 : Closure)
        (hp hp2 hp3 : Heap) (vs : List Holder) (h0 : Holder),
      hasMethod c "__init__" args.length = true →
        execArgs f args cl
            (hp ++ [⟨c, [("self", some (Value.inst hp.length))]⟩]) =
          some (.val vs, cl2, hp2) →
        callMethod f hp.length "__init__" vs hp2 = some (.val h0, hp3) →
        exec (f+1) (Stmt.newInstance c args) cl hp =
          some (.val (some (Value.inst hp.length)), cl2, hp3)) := by
  constructor
  · intro f c args cl hp h1
    simp [exec, h1]
  · intro f c args cl cl2 hp hp2 hp3 vs h0 h1 h2 h3
    simp [exec, eBind, h1, h2, h3]

/-- **C8 (witness).** A class with no `__init__` and a class whose
`__init__` takes one parameter but is given none both produce an
uninitialized instance without error; with the matching one argument,
`__init__` runs and stores the field. -/
theorem c8_new_instance_witness :
    exec 1 (Stmt.newInstance sampleCls []) [] [] =
      some (.val (some (Value.inst 0)), [],
        [⟨sampleCls, [("self", some (Value.inst 0))]⟩]) ∧
    exec 1 (Stmt.newInstance initCls []) [] [] =
      some (.val (some (Value.inst 0)), [],
        [⟨initCls, [("self", some (Value.inst 0))]⟩]) ∧
    exec 7 (Stmt.newInstance initCls [Stmt.constNum 7]) [] [] =
      some (.val (some (Value.inst 0)), [],
        [⟨initCls,
          [("self", some (Value.inst 0)), ("n", some (Value.num 7))]⟩]) := by
  refine ⟨?_, ?_, ?_⟩
  · exact c8_new_instance.1 0 sampleCls [] [] [] rfl
  · exact c8_new_instance.1 0 initCls [] [] [] rfl
  · exact c8_new_instance.2 6 initCls [Stmt.constNum 7] [] []
      [] [⟨initCls, [("self", some (Value.inst 0))]⟩]
      [⟨initCls,
        [("self", some (Value.inst 0)), ("n", some (Value.num 7))]⟩]
      [some (Value.num 7)] none rfl rfl rfl

/-- **C6.** `Equal` dispatches to `__eq__` (arity 1, result coerced by
`IsTrue`) when the left holder is a `ClassInstance` having it; a
`ClassInstance` without it raises (the dispatch goes through `Call`, whose
arity check fails); same-kind primitives compare natively; two empty
holders are equal; every remaining combination raises
`"Cannot compare objects for equality"`. -/
theorem c6_equal_dispatch :
    (∀ (f : Nat) (a : Nat) (r : Holder) (hp hp2 : Heap) (i : InstData)
        (h : Holder),
      hp[a]? = some i → hasMethod i.cls "__eq__" 1 = true →
        callMethod f a "__eq__" [r] hp = some (.val h, hp2) →
        Equal (f+1) (some (Value.inst a)) r hp =
          some (.val (IsTrue h), hp2)) ∧
    (∀ (f : Nat) (a : Nat) (r : Holder) (hp : Heap) (i : InstData),
      hp[a]? = some i → hasMethod i.cls "__eq__" 1 = false →
        Equal (f+2) (some (Value.inst a)) r hp =
          some (.err "Not implemented", hp)) ∧
    (∀ (f : Nat) (m n : Int) (hp : Heap),
      Equal (f+1) (some (Value.num m)) (some (Value.num n)) hp =
        some (.val (m == n), hp)) ∧
    (∀ (f : Nat) (x y : Bool) (hp : Heap),
      Equal (f+1) (some (Value.bool x)) (some (Value.bool y)) hp =
        some (.val (x == y), hp)) ∧
    (∀ (f : Nat) (x y : String) (hp : Heap),
      Equal (f+1) (some (Value.str x)) (some (Value.str y)) hp =
        some (.val (x == y), hp)) ∧
    (∀ (f : Nat) (hp : Heap),
      Equal (f+1) none none hp = some (.val true, hp)) ∧
    (∀ (f : Nat) (l r : Holder) (hp : Heap),
      (∀ a, l ≠ some (Value.inst a)) →
        compareObjects l r (fun a b => a == b) (fun a b => a == b)
          (fun a b => a == b) = none →
        ¬(l = none ∧ r = none) →
        Equal (f+1) l r hp =
          some (.err "Cannot compare objects for equality", hp)) := by
  refine ⟨?_, ?_, ?_, ?_, ?_, ?_, ?_⟩
  · intro f a r hp hp2 i h h1 h2 h3
    simp [Equal, h3]
  · intro f a r hp i h1 h2
    simp [Equal, callMethod, h1, h2]
  · intro f m n hp
    simp [Equal, compareObjects]
  · intro f x y hp
    simp [Equal, compareObjects]
  · intro f x y hp
    simp [Equal, compareObjects]
  · intro f hp
    simp [Equal, compareObjects]
  · intro f l r hp hni hcmp hnn
    rcases l with _ | v
    · rcases r with _ | w
      · exact absurd ⟨rfl, rfl⟩ hnn
      · simp [Equal, hcmp]
    · cases v with
      | inst a => exact absurd rfl (hni a)
      | num x => simp [Equal, hcmp]
      | str x => simp [Equal, hcmp]
      | bool x => simp [Equal, hcmp]
      | cls x => simp [Equal, hcmp]

/-- **C6 (witness).** On a heap with one instance of a class defining
`__eq__` (returning the truthy 1), `Equal(instance, None)` dispatches and
coerces to `true`; on an instance of a class without `__eq__` it raises
`"Not implemented"`; `Number 3 = Number 3` is native equality; two empty
holders are equal; `Number 3 = String "3"` raises. -/
theorem c6_equal_dispatch_witness :
    Equal 6 (some (Value.inst 0)) none
        [⟨eqCls, [("self", some (Value.inst 0))]⟩] =
      some (.val true, [⟨eqCls, [("self", some (Value.inst 0))]⟩]) ∧
    Equal 2 (some (Value.inst 0)) none
        [⟨sampleCls, [("self", some (Value.inst 0))]⟩] =
      some (.err "Not implemented",
        [⟨sampleCls, [("self", some (Value.inst 0))]⟩]) ∧
    Equal 1 (some (Value.num 3)) (some (Value.num 3)) [] =
      some (.val true, []) ∧
    Equal 1 none none [] = some (.val true, []) ∧
    Equal 1 (some (Value.num 3)) (some (Value.str "3")) [] =
      some (.err "Cannot compare objects for equality", []) := by
  refine ⟨?_, ?_, ?_, ?_, ?_⟩
  · have h := c6_equal_dispatch.1 5 0 none
      [⟨eqCls, [("self", some (Value.inst 0))]⟩]
      [⟨eqCls, [("self", some (Value.inst 0))]⟩]
      ⟨eqCls, [("self", some (Value.inst 0))]⟩
      (some (Value.num 1)) rfl rfl rfl
    simpa [IsTrue] using h
  · exact c6_equal_dispatch.2.1 0 0 none
      [⟨sampleCls, [("self", some (Value.inst 0))]⟩]
      ⟨sampleCls, [("self", some (Value.inst 0))]⟩ rfl rfl
  · have h := c6_equal_dispatch.2.2.1 0 3 3 []
    simpa using h
  · exact c6_equal_dispatch.2.2.2.2.2.1 0 []
  · exact c6_equal_dispatch.2.2.2.2.2.2 0 (some (Value.num 3))
      (some (Value.str "3")) [] (fun a h => nomatch h) rfl (by simp)

end Mython
